import Mathlib

/-!
Verification development for the healthcare reminder scheduler
(`src/utils/scheduler.py`, class `HealthcareScheduler`).

Modelling conventions:
* Timestamps (`datetime`) are integers counting seconds; one calendar day is
  86400 seconds and the calendar day of an instant `t` is `t / 86400`
  (Euclidean division, matching Python's `datetime.date()` for the epoch-based
  encoding).  `timedelta(days := n)` is `n * 86400`.
* The `schedule` library's global job registry is the `jobs` field of the
  state; `schedule.every().day.at(t).do(f)` is a `Job` whose `nextRun` is the
  next instant after registration whose time of day equals `t`, and running a
  job moves `nextRun` to the next such future instant (the library's
  `_schedule_next_run` for daily jobs with an `at` time).
* The persisted `schedules.json` file is the `savedFile` field; the exact
  dictionaries written by `_save_schedules` are the record structures below
  (note: `chat_id` is not among the keys the source writes).  ISO-8601
  serialisation of `datetime` round-trips exactly in Python, so serialised
  timestamps are kept as integers.
* A "delivery" is a call into `TelegramSender` (`send_medication_reminder` /
  `send_follow_up_reminder`); its success flag only affects logging.
-/

/-- `MedicationSchedule` dataclass of the source (all fields). -/
structure MedicationSchedule where
  id : String
  medication_name : String
  dosage : String
  times : List String
  duration_days : Int
  start_date : Int
  end_date : Int
  additional_notes : String
  is_active : Bool
  created_at : Int
  chat_id : Option String
deriving DecidableEq

/-- `FollowUpSchedule` dataclass of the source (all fields). -/
structure FollowUpSchedule where
  id : String
  appointment_type : String
  appointment_date : Int
  appointment_time : String
  location : String
  notes : String
  reminder_days_before : List Int
  is_active : Bool
  created_at : Int
deriving DecidableEq

/-- The dictionary keys `_save_schedules` writes for one medication schedule.
Note the absence of `chat_id`: the source serialises every field except it. -/
structure MedRecord where
  id : String
  medication_name : String
  dosage : String
  times : List String
  duration_days : Int
  start_date : Int
  end_date : Int
  additional_notes : String
  is_active : Bool
  created_at : Int
deriving DecidableEq

/-- The dictionary keys `_save_schedules` writes for one follow-up schedule. -/
structure FupRecord where
  id : String
  appointment_type : String
  appointment_date : Int
  appointment_time : String
  location : String
  notes : String
  reminder_days_before : List Int
  is_active : Bool
  created_at : Int
deriving DecidableEq

/-- Content of `schedules.json`: absent, unparseable JSON, or a parsed object
whose record entries may individually be malformed (`none` = a record whose
field access or `datetime.fromisoformat` raises). -/
inductive FileState where
  | missing : FileState
  | invalidJson : FileState
  | parsed : List (Option MedRecord) → List (Option FupRecord) → FileState
deriving DecidableEq

/-- What a job scheduled via `schedule.every().day.at(...)` does:
`_send_medication_reminder(schedule_id)` or
`_send_followup_reminder(schedule_id, days_before)`. -/
inductive JobAction where
  | med : String → JobAction
  | fup : String → Int → JobAction
deriving DecidableEq

/-- One entry of the `schedule` library's job registry: a daily job pinned to
a time of day (seconds since midnight), with its next run instant. -/
structure Job where
  timeOfDay : Nat
  nextRun : Int
  act : JobAction
deriving DecidableEq

/-- One outbound reminder delivery (a call into `TelegramSender`), tagged with
the acting job's action and time of day, and the instant it happened. -/
structure Delivery where
  act : JobAction
  tod : Nat
  at_ : Int
deriving DecidableEq

/-- The `HealthcareScheduler` object state plus the `schedule` module's global
job registry plus the persisted file. -/
structure SchedulerState where
  medication_schedules : List MedicationSchedule
  followup_schedules : List FollowUpSchedule
  jobs : List Job
  savedFile : FileState
deriving DecidableEq

/-- Digit value of a character, if it is a decimal digit. -/
def digitVal (c : Char) : Option Nat :=
  if c.isDigit then some (c.toNat - 48) else none

/-- Parse of a time string into seconds since midnight, as the `schedule`
library's `at()` accepts it for daily jobs: the `HH:MM(:SS)?` formats (two
digits, colon, two digits, optionally a colon and two seconds digits), with
hour 0–23, minute 0–59, second 0–59; anything else raises
`ScheduleValueError`, modelled as `none`. -/
def parseHHMM (s : String) : Option Nat :=
  match s.toList with
  | [h1, h2, c, m1, m2] =>
    if c = ':' then
      match digitVal h1, digitVal h2, digitVal m1, digitVal m2 with
      | some a, some b, some x, some y =>
        if a * 10 + b ≤ 23 && x * 10 + y ≤ 59 then
          some (((a * 10 + b) * 60 + (x * 10 + y)) * 60)
        else none
      | _, _, _, _ => none
    else none
  | [h1, h2, c, m1, m2, c', s1, s2] =>
    if c = ':' ∧ c' = ':' then
      match digitVal h1, digitVal h2, digitVal m1, digitVal m2, digitVal s1,
        digitVal s2 with
      | some a, some b, some x, some y, some u, some v =>
        if a * 10 + b ≤ 23 && x * 10 + y ≤ 59 && u * 10 + v ≤ 59 then
          some (((a * 10 + b) * 60 + (x * 10 + y)) * 60 + (u * 10 + v))
        else none
      | _, _, _, _, _, _ => none
    else none
  | _ => none

/-- Next instant strictly after `now` whose time of day is `tod` — the
`schedule` library's next-run computation for a daily job with an `at` time. -/
def nextAfter (now : Int) (tod : Nat) : Int :=
  if now < (now / 86400) * 86400 + (tod : Int) then
    (now / 86400) * 86400 + (tod : Int)
  else (now / 86400) * 86400 + (tod : Int) + 86400

/-- The record `_save_schedules` writes for a medication schedule. -/
def medToRec (s : MedicationSchedule) : MedRecord :=
  { id := s.id, medication_name := s.medication_name, dosage := s.dosage,
    times := s.times, duration_days := s.duration_days,
    start_date := s.start_date, end_date := s.end_date,
    additional_notes := s.additional_notes, is_active := s.is_active,
    created_at := s.created_at }

/-- The record `_save_schedules` writes for a follow-up schedule. -/
def fupToRec (s : FollowUpSchedule) : FupRecord :=
  { id := s.id, appointment_type := s.appointment_type,
    appointment_date := s.appointment_date,
    appointment_time := s.appointment_time, location := s.location,
    notes := s.notes, reminder_days_before := s.reminder_days_before,
    is_active := s.is_active, created_at := s.created_at }

/-- The `MedicationSchedule` the loader constructs from a stored record;
`chat_id` is not read back, so the dataclass default `None` applies. -/
def recToMed (r : MedRecord) : MedicationSchedule :=
  { id := r.id, medication_name := r.medication_name, dosage := r.dosage,
    times := r.times, duration_days := r.duration_days,
    start_date := r.start_date, end_date := r.end_date,
    additional_notes := r.additional_notes, is_active := r.is_active,
    created_at := r.created_at, chat_id := none }

/-- The `FollowUpSchedule` the loader constructs from a stored record. -/
def recToFup (r : FupRecord) : FollowUpSchedule :=
  { id := r.id, appointment_type := r.appointment_type,
    appointment_date := r.appointment_date,
    appointment_time := r.appointment_time, location := r.location,
    notes := r.notes, reminder_days_before := r.reminder_days_before,
    is_active := r.is_active, created_at := r.created_at }

/-- File content produced by `_save_schedules` from the two registries. -/
def saveData (meds : List MedicationSchedule) (fups : List FollowUpSchedule) :
    FileState :=
  FileState.parsed (meds.map fun s => some (medToRec s))
    (fups.map fun s => some (fupToRec s))

/-- `_save_schedules`: snapshot-write the registries into the file. -/
def save_schedules (st : SchedulerState) : SchedulerState :=
  { st with savedFile := saveData st.medication_schedules st.followup_schedules }

/-- Longest all-`some` prefix of a record list, with a flag telling whether
the whole list was consumed: iterating the loader's `for` loop stops at the
first record whose processing raises. -/
def takeSomes : List (Option α) → List α × Bool
  | [] => ([], true)
  | none :: _ => ([], false)
  | some a :: rest =>
    let r := takeSomes rest
    (a :: r.1, r.2)

/-- Result of `_load_schedules`: registries as populated when the method
returns, plus whether an exception escaped to the caller. -/
structure LoadResult where
  medications : List MedicationSchedule
  followups : List FollowUpSchedule
  raised : Bool
deriving DecidableEq

/-- `_load_schedules` run against file content `f` with initially empty
registries (as in `__init__`).  The whole body is wrapped in
`except Exception: logger.error(...)`, so no branch ever raises: a missing
file loads nothing, unparseable JSON loads nothing, and a malformed record
aborts the loop mid-way leaving the records parsed before it. -/
def load_schedules (f : FileState) : LoadResult :=
  match f with
  | FileState.missing => ⟨[], [], false⟩
  | FileState.invalidJson => ⟨[], [], false⟩
  | FileState.parsed ms fs =>
    let m := takeSomes ms
    if m.2 then
      let fl := takeSomes fs
      ⟨m.1.map recToMed, fl.1.map recToFup, false⟩
    else
      ⟨m.1.map recToMed, [], false⟩

/-- Python dict insertion `self.medication_schedules[schedule_id] = schedule`:
replace the entry with the same key, else append. -/
def insertMed : List MedicationSchedule → MedicationSchedule →
    List MedicationSchedule
  | [], s => [s]
  | x :: xs, s => if x.id == s.id then s :: xs else x :: insertMed xs s

/-- Python dict insertion for the follow-up registry. -/
def insertFup : List FollowUpSchedule → FollowUpSchedule →
    List FollowUpSchedule
  | [], s => [s]
  | x :: xs, s => if x.id == s.id then s :: xs else x :: insertFup xs s

/-- Job registration performed by `_schedule_medication_reminders`: one daily
job per entry of `times`, in order, stopping at the first entry `at()`
rejects (the `try` wraps the whole `for` loop, so a `ScheduleValueError`
abandons the remaining entries; the error is logged and swallowed). -/
def medJobTods : List String → List Nat
  | [] => []
  | t :: ts =>
    match parseHHMM t with
    | some tod => tod :: medJobTods ts
    | none => []

/-- Jobs registered for the given times of day and action at instant `now`. -/
def registerJobs (tods : List Nat) (act : JobAction) (now : Int) : List Job :=
  tods.map fun tod => { timeOfDay := tod, nextRun := nextAfter now tod, act }

/-- `add_medication_schedule`.  `now` is the wall clock at the call
(`datetime.now()`); `schedule_id` stands for the fresh `uuid4`.  The source
performs no validation of `times` or `duration_days`; it builds the schedule
(`end_date = start_date + timedelta(days=duration_days)`), stores the chat id
only if truthy, inserts into the registry, registers the reminder jobs, and
snapshot-saves. -/
def add_medication_schedule (st : SchedulerState)
    (schedule_id medication_name dosage : String) (times : List String)
    (duration_days : Int) (start_dateOpt : Option Int)
    (additional_notes : String) (chat_id : Option String) (now : Int) :
    SchedulerState × String :=
  let start_date := start_dateOpt.getD now
  let sched : MedicationSchedule :=
    { id := schedule_id, medication_name, dosage, times, duration_days,
      start_date, end_date := start_date + duration_days * 86400,
      additional_notes, is_active := true, created_at := now,
      chat_id := match chat_id with
        | some c => if c = "" then none else some c
        | none => none }
  let st1 := { st with
    medication_schedules := insertMed st.medication_schedules sched }
  let st2 := { st1 with
    jobs := st1.jobs ++
      registerJobs (medJobTods times) (JobAction.med schedule_id) now }
  (save_schedules st2, schedule_id)

/-- `add_followup_schedule`.  Default reminder offsets `[1, 3, 7]`; a daily
09:00 job is registered for each offset whose reminder instant
(`appointment_date - timedelta(days=days_before)`) is still in the future at
registration time.  09:00 is 32400 seconds. -/
def add_followup_schedule (st : SchedulerState)
    (schedule_id appointment_type : String) (appointment_date : Int)
    (appointment_time location notes : String)
    (reminder_days_beforeOpt : Option (List Int)) (now : Int) :
    SchedulerState × String :=
  let reminder_days_before := reminder_days_beforeOpt.getD [1, 3, 7]
  let sched : FollowUpSchedule :=
    { id := schedule_id, appointment_type, appointment_date, appointment_time,
      location, notes, reminder_days_before, is_active := true,
      created_at := now }
  let st1 := { st with
    followup_schedules := insertFup st.followup_schedules sched }
  let st2 := { st1 with
    jobs := st1.jobs ++
      ((reminder_days_before.filter fun n =>
          now < appointment_date - n * 86400).map fun n =>
        { timeOfDay := 32400, nextRun := nextAfter now 32400,
          act := JobAction.fup schedule_id n }) }
  (save_schedules st2, schedule_id)

/-- `_send_medication_reminder(schedule_id)` at wall clock `now`.  Returns the
new state and whether a reminder was handed to the Telegram sender.  Missing
or inactive schedules are skipped; an expired schedule (`now > end_date`) is
deactivated and persisted without delivering. -/
def send_medication_reminder (st : SchedulerState) (schedule_id : String)
    (now : Int) : SchedulerState × Bool :=
  match st.medication_schedules.find? (fun s => s.id == schedule_id) with
  | none => (st, false)
  | some s =>
    if s.is_active = false then (st, false)
    else if s.end_date < now then
      (save_schedules { st with
        medication_schedules := st.medication_schedules.map fun x =>
          if x.id == schedule_id then { x with is_active := false } else x },
       false)
    else (st, true)

/-- `_send_followup_reminder(schedule_id, days_before)` at wall clock `now`:
skip if missing or inactive, skip unless today is the reminder calendar day;
otherwise deliver.  No state is modified. -/
def send_followup_reminder (st : SchedulerState) (schedule_id : String)
    (days_before : Int) (now : Int) : Bool :=
  match st.followup_schedules.find? (fun s => s.id == schedule_id) with
  | none => false
  | some s =>
    if s.is_active = false then false
    else if (s.appointment_date - days_before * 86400) / 86400 = now / 86400
    then true
    else false

/-- Run one due job's action, collecting the deliveries it performs. -/
def runJob (st : SchedulerState) (now : Int) (j : Job) :
    SchedulerState × List Delivery :=
  match j.act with
  | JobAction.med sid =>
    let r := send_medication_reminder st sid now
    (r.1, if r.2 then [⟨j.act, j.timeOfDay, now⟩] else [])
  | JobAction.fup sid n =>
    (st, if send_followup_reminder st sid n now then [⟨j.act, j.timeOfDay, now⟩]
         else [])

/-- The `schedule` library's `run_pending` over an explicit job list: run each
job whose `next_run` has arrived, rescheduling it for the next occurrence of
its time of day.  Returns updated jobs, updated scheduler state and the
deliveries performed. -/
def runJobs : List Job → Int → SchedulerState →
    List Job × SchedulerState × List Delivery
  | [], _, st => ([], st, [])
  | j :: js, now, st =>
    if j.nextRun ≤ now then
      let r := runJob st now j
      let rest := runJobs js now r.1
      ({ j with nextRun := nextAfter now j.timeOfDay } :: rest.1, rest.2.1,
       r.2 ++ rest.2.2)
    else
      let rest := runJobs js now st
      (j :: rest.1, rest.2.1, rest.2.2)

/-- One tick of `start_scheduler`'s loop: `schedule.run_pending()` at wall
clock `now`. -/
def run_pending (st : SchedulerState) (now : Int) :
    SchedulerState × List Delivery :=
  let r := runJobs st.jobs now st
  ({ r.2.1 with jobs := r.1 }, r.2.2)

/-- `n` consecutive one-second ticks of the polling loop starting at instant
`start`, with all deliveries performed along the way. -/
def runTicks (st : SchedulerState) (start : Int) : Nat →
    SchedulerState × List Delivery
  | 0 => (st, [])
  | n + 1 =>
    let r := run_pending st start
    let rest := runTicks r.1 (start + 1) n
    (rest.1, r.2 ++ rest.2)

/-- `stop_medication_schedule(schedule_id)`: if present, deactivate and
snapshot-save, returning `True`; otherwise return `False` untouched. -/
def stop_medication_schedule (st : SchedulerState) (schedule_id : String) :
    SchedulerState × Bool :=
  if st.medication_schedules.any (fun s => s.id == schedule_id) then
    (save_schedules { st with
      medication_schedules := st.medication_schedules.map fun x =>
        if x.id == schedule_id then { x with is_active := false } else x },
     true)
  else (st, false)

/-- `stop_followup_schedule(schedule_id)`: same shape for follow-ups. -/
def stop_followup_schedule (st : SchedulerState) (schedule_id : String) :
    SchedulerState × Bool :=
  if st.followup_schedules.any (fun s => s.id == schedule_id) then
    (save_schedules { st with
      followup_schedules := st.followup_schedules.map fun x =>
        if x.id == schedule_id then { x with is_active := false } else x },
     true)
  else (st, false)

/-- `get_active_schedules` at wall clock `now`: active medications with
`now <= end_date`, active follow-ups with `appointment_date > now`. -/
def get_active_schedules (st : SchedulerState) (now : Int) :
    List MedicationSchedule × List FollowUpSchedule :=
  (st.medication_schedules.filter fun v => v.is_active && decide (now ≤ v.end_date),
   st.followup_schedules.filter fun v => v.is_active && decide (now < v.appointment_date))

/-- A scheduler freshly constructed with no `schedules.json` present. -/
def emptyState : SchedulerState :=
  ⟨[], [], [], FileState.missing⟩

/-- Invariant of a registered daily job at the moment tick `now` is about to
run: its time of day is within the day, its next-run instant lies on that time
of day, and has not been passed silently. -/
def JInv (now : Int) (j : Job) : Prop :=
  j.timeOfDay < 86400 ∧ j.nextRun % 86400 = (j.timeOfDay : Int) ∧
    now ≤ j.nextRun

/-- Deliveries selected by an action/time-of-day predicate that happened on
calendar day `D`. -/
def dKey (p : JobAction → Nat → Bool) (D : Int) (d : Delivery) : Bool :=
  p d.act d.tod && (d.at_ / 86400 == D)

/-- Jobs selected by an action/time-of-day predicate that can still fire no
later than calendar day `D`. -/
def jliveB (p : JobAction → Nat → Bool) (D : Int) (j : Job) : Bool :=
  p j.act j.timeOfDay && decide (j.nextRun < (D + 1) * 86400)

/-- The medication-reminder deliveries of a delivery list addressed for
schedule `sid` at scheduled time of day `t` on calendar day `D`. -/
def medTripleCount (ds : List Delivery) (sid : String) (t : Nat) (D : Int) :
    Nat :=
  (ds.filter (dKey (fun a tod => a == JobAction.med sid && tod == t) D)).length

/-- The follow-up deliveries of a delivery list addressed for schedule `sid`
and reminder offset `n` (any day). -/
def fupPairCount (ds : List Delivery) (sid : String) (n : Int) : Nat :=
  (ds.filter fun d => d.act == JobAction.fup sid n).length

/-- One operation step of the running system: a facade call
(`add_*`, `stop_*`), a background tick (`run_pending`), or a snapshot save.
The `hfresh` hypotheses on the add steps record that `uuid4` identifiers are
fresh.  `_load_schedules` is not a step: the source calls it only from
`__init__`, on still-empty registries. -/
inductive Step : SchedulerState → SchedulerState → Prop where
  | addMed (st : SchedulerState) (schedule_id medication_name dosage : String)
      (times : List String) (duration_days : Int) (start_dateOpt : Option Int)
      (additional_notes : String) (chat_id : Option String) (now : Int)
      (hfresh : ∀ x ∈ st.medication_schedules, x.id ≠ schedule_id) :
      Step st (add_medication_schedule st schedule_id medication_name dosage
        times duration_days start_dateOpt additional_notes chat_id now).1
  | addFup (st : SchedulerState) (schedule_id appointment_type : String)
      (appointment_date : Int) (appointment_time location notes : String)
      (reminder_days_beforeOpt : Option (List Int)) (now : Int)
      (hfresh : ∀ x ∈ st.followup_schedules, x.id ≠ schedule_id) :
      Step st (add_followup_schedule st schedule_id appointment_type
        appointment_date appointment_time location notes
        reminder_days_beforeOpt now).1
  | stopMed (st : SchedulerState) (schedule_id : String) :
      Step st (stop_medication_schedule st schedule_id).1
  | stopFup (st : SchedulerState) (schedule_id : String) :
      Step st (stop_followup_schedule st schedule_id).1
  | tick (st : SchedulerState) (now : Int) :
      Step st (run_pending st now).1
  | saveOp (st : SchedulerState) : Step st (save_schedules st)

/-- Concrete medication schedule used to exercise the theorems: active, with
a recipient chat id, expiring at instant 100. -/
def demoMed1 : MedicationSchedule :=
  ⟨"m1", "Lisinopril", "10mg", ["08:00"], 1, 0, 100, "with food", true, 0,
   some "chat1"⟩

/-- Concrete medication schedule: already stopped. -/
def demoMed2 : MedicationSchedule :=
  ⟨"m2", "Aspirin", "5mg", ["09:00"], 7, 0, 604800, "", false, 0, none⟩

/-- Concrete follow-up schedule: active. -/
def demoFup1 : FollowUpSchedule :=
  ⟨"f1", "Cardiology", 864000, "2:30 PM", "Room 302", "", [1, 3, 7], true, 0⟩

/-- Concrete follow-up schedule: already stopped. -/
def demoFup2 : FollowUpSchedule :=
  ⟨"f2", "Radiology", 950400, "10:00 AM", "", "", [1], false, 0⟩

/-- Concrete scheduler state holding the schedules above and one registered
medication job. -/
def demoState : SchedulerState :=
  ⟨[demoMed1, demoMed2], [demoFup1, demoFup2],
   [⟨28800, 28800, JobAction.med "m1"⟩], FileState.missing⟩

/-! ### Basic facts about time parsing and next-run computation -/

/-- A successfully parsed `HH:MM(:SS)?` time is less than a day of
seconds. -/
theorem parseHHMM_lt {s : String} {t : Nat} (h : parseHHMM s = some t) :
    t < 86400 := by
  unfold parseHHMM at h
  split at h
  · split at h
    · split at h
      · split at h
        · rename_i hle
          simp only [Bool.and_eq_true, decide_eq_true_eq] at hle
          simp only [Option.some.injEq] at h
          omega
        · exact absurd h (by simp)
      · exact absurd h (by simp)
    · exact absurd h (by simp)
  · split at h
    · split at h
      · split at h
        · rename_i hle
          simp only [Bool.and_eq_true, decide_eq_true_eq] at hle
          simp only [Option.some.injEq] at h
          omega
        · exact absurd h (by simp)
      · exact absurd h (by simp)
    · exact absurd h (by simp)
  · exact absurd h (by simp)

/-- Every time of day produced by `medJobTods` is less than a day. -/
theorem medJobTods_lt : ∀ (times : List String), ∀ t ∈ medJobTods times,
    t < 86400 := by
  intro times
  induction times with
  | nil => intro t ht; simp [medJobTods] at ht
  | cons s ss ih =>
    intro t ht
    unfold medJobTods at ht
    split at ht
    · rename_i tod hp
      rcases List.mem_cons.mp ht with h | h
      · subst h; exact parseHHMM_lt hp
      · exact ih t h
    · simp at ht

/-- The next occurrence of a time of day is strictly in the future. -/
theorem nextAfter_gt (now : Int) (tod : Nat) : now < nextAfter now tod := by
  unfold nextAfter
  split <;> omega

/-- The next occurrence of a time of day lands on that time of day. -/
theorem nextAfter_emod (now : Int) (tod : Nat) (h : tod < 86400) :
    nextAfter now tod % 86400 = (tod : Int) := by
  unfold nextAfter
  split <;> omega

/-- From an instant already at time of day `tod`, the next occurrence is
exactly one day later. -/
theorem nextAfter_of_emod (now : Int) (tod : Nat)
    (h : now % 86400 = (tod : Int)) : nextAfter now tod = now + 86400 := by
  unfold nextAfter
  split <;> omega

/-! ### List and record utilities -/

/-- `find?` only depends on the pointwise behaviour of the predicate. -/
theorem find?_congr_pred {α : Type} {p q : α → Bool} (h : ∀ x, p x = q x) :
    ∀ l : List α, l.find? p = l.find? q := by
  intro l
  induction l with
  | nil => rfl
  | cons x xs ih =>
    rw [List.find?_cons, List.find?_cons, h x]
    split <;> simp [ih]

/-- A `find?` hit in the left part of an append is the overall hit. -/
theorem find?_append_left {α : Type} {p : α → Bool} {l l' : List α} {a : α}
    (h : l.find? p = some a) : (l ++ l').find? p = some a := by
  rw [List.find?_append, h]; rfl

/-- Deactivating a medication schedule that is already inactive is the
identity. -/
theorem deactivate_med_self (x : MedicationSchedule) (h : x.is_active = false) :
    { x with is_active := false } = x := by
  cases x; simp_all

/-- Deactivating a follow-up schedule that is already inactive is the
identity. -/
theorem deactivate_fup_self (x : FollowUpSchedule) (h : x.is_active = false) :
    { x with is_active := false } = x := by
  cases x; simp_all

/-- `find?` by id commutes with the stop-operation's deactivating map on the
medication registry. -/
theorem find?_map_deact_med (l : List MedicationSchedule) (sid tid : String) :
    (l.map fun x => if x.id == sid then { x with is_active := false }
      else x).find? (fun x => x.id == tid)
    = (l.find? fun x => x.id == tid).map
        fun x => if x.id == sid then { x with is_active := false } else x := by
  rw [List.find?_map]
  congr 1
  apply find?_congr_pred
  intro x
  simp only [Function.comp_apply]
  split <;> rfl

/-- `find?` by id commutes with the stop-operation's deactivating map on the
follow-up registry. -/
theorem find?_map_deact_fup (l : List FollowUpSchedule) (sid tid : String) :
    (l.map fun x => if x.id == sid then { x with is_active := false }
      else x).find? (fun x => x.id == tid)
    = (l.find? fun x => x.id == tid).map
        fun x => if x.id == sid then { x with is_active := false } else x := by
  rw [List.find?_map]
  congr 1
  apply find?_congr_pred
  intro x
  simp only [Function.comp_apply]
  split <;> rfl

/-- Filtering with a conjunction yields no more hits than with one
conjunct. -/
theorem length_filter_and_le {α : Type} (l : List α) (q k : α → Bool) :
    (l.filter fun x => q x && k x).length ≤ (l.filter q).length := by
  induction l with
  | nil => simp
  | cons x xs ih =>
    by_cases hq : q x
    · by_cases hk : k x
      · simp [List.filter_cons, hq, hk]; omega
      · simp [List.filter_cons, hq, hk]; omega
    · simp [List.filter_cons, hq]; exact ih

/-! ### Behaviour of a single job run -/

/-- Deliveries of one job run: none, or exactly one stamped with the job's
action, its time of day, and the current instant. -/
theorem runJob_ds (st : SchedulerState) (now : Int) (j : Job) :
    (runJob st now j).2 = [] ∨
      (runJob st now j).2 = [⟨j.act, j.timeOfDay, now⟩] := by
  unfold runJob
  cases j.act <;> dsimp only <;> split <;> simp

/-- `_send_medication_reminder` never touches the follow-up registry. -/
theorem send_med_fups (st : SchedulerState) (sid : String) (now : Int) :
    (send_medication_reminder st sid now).1.followup_schedules
      = st.followup_schedules := by
  unfold send_medication_reminder
  split
  · rfl
  · split
    · rfl
    · split <;> rfl

/-- `_send_medication_reminder` never touches the job registry. -/
theorem send_med_jobs (st : SchedulerState) (sid : String) (now : Int) :
    (send_medication_reminder st sid now).1.jobs = st.jobs := by
  unfold send_medication_reminder
  split
  · rfl
  · split
    · rfl
    · split <;> rfl

/-- Running one job never touches the follow-up registry. -/
theorem runJob_fups (st : SchedulerState) (now : Int) (j : Job) :
    (runJob st now j).1.followup_schedules = st.followup_schedules := by
  unfold runJob
  cases j.act
  · exact send_med_fups ..
  · rfl

/-- Helper: length of a filtered cons as an explicit bit plus the tail. -/
theorem length_filter_cons {α : Type} (x : α) (xs : List α) (q : α → Bool) :
    ((x :: xs).filter q).length
      = (if q x then 1 else 0) + (xs.filter q).length := by
  rw [List.filter_cons]
  split <;> simp [Nat.add_comm]

/-! ### The at-most-once-per-day counting argument -/

/-- Potential argument: during one `run_pending` pass over a job list whose
jobs satisfy `JInv now`, the deliveries selected by `(p, D)` plus the selected
jobs still able to fire by day `D` never exceed the selected jobs able to fire
by day `D` beforehand. -/
theorem runJobs_count (p : JobAction → Nat → Bool) (D : Int) :
    ∀ (js : List Job) (now : Int) (st : SchedulerState),
      (∀ j ∈ js, JInv now j) →
      ((runJobs js now st).2.2.filter (dKey p D)).length
          + ((runJobs js now st).1.filter (jliveB p D)).length
        ≤ (js.filter (jliveB p D)).length := by
  intro js
  induction js with
  | nil => intro now st _; simp [runJobs]
  | cons j js ih =>
    intro now st hinv
    obtain ⟨htod, hmod, hle⟩ := hinv j (List.mem_cons_self j js)
    have hinvt : ∀ x ∈ js, JInv now x := fun x hx =>
      hinv x (List.mem_cons_of_mem j hx)
    by_cases hdue : j.nextRun ≤ now
    · have hge : j.nextRun = now := le_antisymm hdue hle
      have hnowmod : now % 86400 = (j.timeOfDay : Int) := by rw [← hge]; exact hmod
      have hna : nextAfter now j.timeOfDay = now + 86400 :=
        nextAfter_of_emod _ _ hnowmod
      have hIH := ih now (runJob st now j).1 hinvt
      simp only [runJobs, if_pos hdue]
      rw [List.filter_append, List.length_append,
        length_filter_cons, length_filter_cons]
      have hbit : jliveB p D j
          = (p j.act j.timeOfDay && decide (now < (D + 1) * 86400)) := by
        simp only [jliveB, hge]
      have hbit' : jliveB p D { j with nextRun := nextAfter now j.timeOfDay }
          = (p j.act j.timeOfDay && decide (now + 86400 < (D + 1) * 86400)) := by
        simp only [jliveB, hna]
      by_cases hpj : p j.act j.timeOfDay = true
      · by_cases hD : now / 86400 = D
        · have hA : ((runJob st now j).2.filter (dKey p D)).length ≤ 1 := by
            rcases runJob_ds st now j with hds | hds <;> rw [hds]
            · simp
            · exact le_trans (List.length_filter_le _ _) (by simp)
          have hc1 : (now < (D + 1) * 86400) := by omega
          have hc2 : ¬ (now + 86400 < (D + 1) * 86400) := by omega
          rw [hbit, hbit']
          simp only [hpj, Bool.true_and]
          rw [if_neg (by simp [hc2]), if_pos (by simp [hc1])]
          omega
        · have hA : ((runJob st now j).2.filter (dKey p D)).length = 0 := by
            rcases runJob_ds st now j with hds | hds <;> rw [hds]
            · simp
            · simp [dKey, hD]
          rw [hbit, hbit']
          simp only [hpj, Bool.true_and]
          by_cases hB : now + 86400 < (D + 1) * 86400
          · have hc1 : (now < (D + 1) * 86400) := by omega
            rw [if_pos (by simp [hB]), if_pos (by simp [hc1])]
            omega
          · rw [if_neg (by simp [hB])]
            by_cases hc1 : now < (D + 1) * 86400
            · rw [if_pos (by simp [hc1])]; omega
            · rw [if_neg (by simp [hc1])]; omega
      · have hpj' : p j.act j.timeOfDay = false := by
          simpa using hpj
        have hA : ((runJob st now j).2.filter (dKey p D)).length = 0 := by
          rcases runJob_ds st now j with hds | hds <;> rw [hds]
          · simp
          · simp [dKey, hpj']
        rw [hbit, hbit']
        simp only [hpj', Bool.false_and]
        omega
    · have hIH := ih now st hinvt
      simp only [runJobs, if_neg hdue]
      rw [length_filter_cons, length_filter_cons]
      omega

/-- The job invariant advances by one tick across a `run_pending` pass. -/
theorem runJobs_inv :
    ∀ (js : List Job) (now : Int) (st : SchedulerState),
      (∀ j ∈ js, JInv now j) →
      ∀ j ∈ (runJobs js now st).1, JInv (now + 1) j := by
  intro js
  induction js with
  | nil => intro now st _ j hj; simp [runJobs] at hj
  | cons x xs ih =>
    intro now st hinv j hj
    obtain ⟨htod, hmod, hle⟩ := hinv x (List.mem_cons_self x xs)
    have hinvt : ∀ y ∈ xs, JInv now y := fun y hy =>
      hinv y (List.mem_cons_of_mem x hy)
    by_cases hdue : x.nextRun ≤ now
    · simp only [runJobs, if_pos hdue] at hj
      rcases List.mem_cons.mp hj with h | h
      · subst h
        refine ⟨htod, nextAfter_emod now x.timeOfDay htod, ?_⟩
        have := nextAfter_gt now x.timeOfDay
        show now + 1 ≤ nextAfter now x.timeOfDay
        omega
      · exact ih now (runJob st now x).1 hinvt j h
    · simp only [runJobs, if_neg hdue] at hj
      rcases List.mem_cons.mp hj with h | h
      · subst h
        exact ⟨htod, hmod, by omega⟩
      · exact ih now st hinvt j h

/-- Trace form of the counting argument: over any run of consecutive ticks
from a state whose jobs satisfy the invariant, the `(p, D)`-selected
deliveries never exceed the initially selected live jobs. -/
theorem runTicks_count (p : JobAction → Nat → Bool) (D : Int) :
    ∀ (n : Nat) (st : SchedulerState) (start : Int),
      (∀ j ∈ st.jobs, JInv start j) →
      ((runTicks st start n).2.filter (dKey p D)).length
        ≤ (st.jobs.filter (jliveB p D)).length := by
  intro n
  induction n with
  | zero => intro st start _; simp [runTicks]
  | succ n ih =>
    intro st start hinv
    simp only [runTicks, run_pending]
    rw [List.filter_append, List.length_append]
    have h1 := runJobs_count p D st.jobs start st hinv
    have h2 := runJobs_inv st.jobs start st hinv
    have h3 := ih { (runJobs st.jobs start st).2.1 with
        jobs := (runJobs st.jobs start st).1 } (start + 1)
      (by intro j hj; exact h2 j hj)
    dsimp only at h3
    omega

/-- Jobs registered for a list of times of day satisfy the invariant from any
starting tick not before the instant right after registration. -/
theorem registerJobs_inv (tods : List Nat) (act : JobAction) (now start : Int)
    (hlt : ∀ t ∈ tods, t < 86400) (hstart : start ≤ now + 1) :
    ∀ j ∈ registerJobs tods act now, JInv start j := by
  intro j hj
  unfold registerJobs at hj
  obtain ⟨tod, htod, rfl⟩ := List.mem_map.mp hj
  refine ⟨hlt tod htod, nextAfter_emod now tod (hlt tod htod), ?_⟩
  have := nextAfter_gt now tod
  show start ≤ nextAfter now tod
  omega

/-- Counting `(p, D)`-live jobs among freshly registered jobs is bounded by
counting the registered times of day selected by `p` on the action. -/
theorem registerJobs_live_le (tods : List Nat) (act : JobAction) (now : Int)
    (p : JobAction → Nat → Bool) (D : Int) :
    ((registerJobs tods act now).filter (jliveB p D)).length
      ≤ (tods.filter fun tod => p act tod).length := by
  have h1 : ((registerJobs tods act now).filter (jliveB p D)).length
      ≤ ((registerJobs tods act now).filter fun j =>
          p j.act j.timeOfDay).length := by
    exact length_filter_and_le _ _ _
  refine le_trans h1 ?_
  unfold registerJobs
  rw [List.filter_map, List.length_map]
  apply le_of_eq
  congr 1

/-- Registered medication job times of day are counted by the parseable
prefix of `times`, itself bounded by all parseable entries. -/
theorem count_medJobTods_le (times : List String) (t : Nat) :
    (medJobTods times).count t ≤ (times.filterMap parseHHMM).count t := by
  induction times with
  | nil => simp [medJobTods]
  | cons s ss ih =>
    unfold medJobTods
    cases hp : parseHHMM s
    · simp only [List.filterMap_cons, hp]
      simp
    · rename_i tod
      simp only [List.filterMap_cons, hp]
      rw [List.count_cons, List.count_cons]
      omega

/-- `count` as a filtered length. -/
theorem count_eq_len_filter {α : Type} [DecidableEq α] (l : List α) (a : α) :
    l.count a = (l.filter fun x => x == a).length := by
  rw [show l.count a = l.countP (· == a) from rfl, List.countP_eq_length_filter]

/-! ### Claim C2: at most one medication delivery per (schedule, time, day) -/

/-- **C2** (amended): after adding a medication schedule whose `times` entries
parse to pairwise-distinct times of day, any run of consecutive ticks of the
polling loop performs at most one medication-reminder delivery per
(schedule, time-of-day, calendar-day) triple; duplicate ticks within the
matching minute or later the same day never double-fire.  (With duplicate
`times` entries the source registers one job per entry, so a triple can
receive one delivery per duplicate — see the counterexample.) -/
theorem med_reminder_at_most_once_per_triple
    (sid name dosage notes : String) (times : List String) (dur : Int)
    (so : Option Int) (chat : Option String) (addNow start : Int)
    (t : Nat) (D : Int) (n : Nat)
    (hnodup : (times.filterMap parseHHMM).Nodup)
    (hstart : start ≤ addNow + 1) :
    medTripleCount
      (runTicks
        (add_medication_schedule emptyState sid name dosage times dur so notes
          chat addNow).1 start n).2 sid t D ≤ 1 := by
  have hjobs : (add_medication_schedule emptyState sid name dosage times dur
      so notes chat addNow).1.jobs
      = registerJobs (medJobTods times) (JobAction.med sid) addNow := rfl
  have hinv : ∀ j ∈ (add_medication_schedule emptyState sid name dosage times
      dur so notes chat addNow).1.jobs, JInv start j := by
    rw [hjobs]
    exact registerJobs_inv _ _ _ _ (medJobTods_lt times) hstart
  have h1 := runTicks_count (fun a tod => a == JobAction.med sid && tod == t) D
    n _ start hinv
  unfold medTripleCount
  refine le_trans h1 ?_
  rw [hjobs]
  refine le_trans (registerJobs_live_le (medJobTods times) (JobAction.med sid)
    addNow (fun a tod => a == JobAction.med sid && tod == t) D) ?_
  have h3 : ((medJobTods times).filter fun tod =>
      (JobAction.med sid == JobAction.med sid && tod == t)).length
      = (medJobTods times).count t := by
    rw [count_eq_len_filter]
    apply congrArg
    apply List.filter_congr
    intro x _
    simp
  rw [h3]
  exact le_trans (count_medJobTods_le times t)
    (List.nodup_iff_count_le_one.mp hnodup t)

/-- Witness for C2: a concrete two-dose schedule with distinct times run over
many ticks. -/
theorem med_reminder_at_most_once_per_triple_witness :
    medTripleCount
      (runTicks
        (add_medication_schedule emptyState "m2" "Aspirin" "5mg"
          ["08:00", "20:00"] 7 (some 0) "" none 0).1 1 200000).2
      "m2" 28800 0 ≤ 1 :=
  med_reminder_at_most_once_per_triple "m2" "Aspirin" "5mg" ""
    ["08:00", "20:00"] 7 (some 0) none 0 1 28800 0 200000
    (by decide) (by decide)

/-- **C2 counterexample**: with the duplicate entry list
`times = ["08:00", "08:00"]` the source registers two identical daily jobs;
at the single matching tick both fire, so the (schedule `"m1"`,
time-of-day 08:00, day 0) triple receives two deliveries — the claimed
at-most-one bound is false. -/
theorem med_reminder_double_delivery_on_duplicate_times :
    1 < medTripleCount
      (runTicks
        (add_medication_schedule emptyState "m1" "Lisinopril" "10mg"
          ["08:00", "08:00"] 30 (some 0) "" none 0).1 28800 1).2
      "m1" 28800 0 := by
  decide

/-! ### Claim C3: follow-up reminders -/

/-- A `run_pending` pass never modifies the follow-up registry. -/
theorem runJobs_fups :
    ∀ (js : List Job) (now : Int) (st : SchedulerState),
      (runJobs js now st).2.1.followup_schedules = st.followup_schedules := by
  intro js
  induction js with
  | nil => intro now st; rfl
  | cons j js ih =>
    intro now st
    by_cases hdue : j.nextRun ≤ now
    · simp only [runJobs, if_pos hdue]
      rw [ih now (runJob st now j).1, runJob_fups]
    · simp only [runJobs, if_neg hdue]
      exact ih now st

/-- A tick never modifies the follow-up registry. -/
theorem run_pending_fups (st : SchedulerState) (now : Int) :
    (run_pending st now).1.followup_schedules = st.followup_schedules := by
  show (runJobs st.jobs now st).2.1.followup_schedules = st.followup_schedules
  exact runJobs_fups st.jobs now st

/-- Any follow-up delivery of one `run_pending` pass is stamped with the
current instant and was guarded by: schedule present, active, and today equal
to the reminder calendar day. -/
theorem runJobs_fup_delivery :
    ∀ (js : List Job) (now : Int) (st : SchedulerState) (d : Delivery),
      d ∈ (runJobs js now st).2.2 → ∀ (sid : String) (N : Int),
      d.act = JobAction.fup sid N →
      d.at_ = now ∧ ∃ s, st.followup_schedules.find? (fun x => x.id == sid)
        = some s ∧ s.is_active = true ∧
        (s.appointment_date - N * 86400) / 86400 = now / 86400 := by
  intro js
  induction js with
  | nil => intro now st d hd sid N hact; simp [runJobs] at hd
  | cons j js ih =>
    intro now st d hd sid N hact
    by_cases hdue : j.nextRun ≤ now
    · simp only [runJobs, if_pos hdue] at hd
      rw [List.mem_append] at hd
      rcases hd with hd | hd
      · unfold runJob at hd
        cases hj : j.act with
        | med sid' =>
          rw [hj] at hd
          dsimp only at hd
          split at hd
          · rw [List.mem_singleton] at hd
            subst hd
            simp at hact
          · simp at hd
        | fup sid' n' =>
          rw [hj] at hd
          dsimp only at hd
          split at hd
          · rename_i hsend
            rw [List.mem_singleton] at hd
            subst hd
            simp only [JobAction.fup.injEq] at hact
            obtain ⟨rfl, rfl⟩ := hact
            refine ⟨rfl, ?_⟩
            unfold send_followup_reminder at hsend
            cases hf : st.followup_schedules.find? (fun x => x.id == sid') with
            | none => rw [hf] at hsend; cases hsend
            | some s =>
              rw [hf] at hsend
              dsimp only at hsend
              by_cases hia : s.is_active = false
              · rw [if_pos hia] at hsend; cases hsend
              · rw [if_neg hia] at hsend
                split at hsend
                · rename_i hday
                  exact ⟨s, rfl, by simpa using hia, hday⟩
                · cases hsend
          · simp at hd
      · have h := ih now (runJob st now j).1 d hd sid N hact
        rw [runJob_fups] at h
        exact h
    · simp only [runJobs, if_neg hdue] at hd
      exact ih now st d hd sid N hact

/-- Trace form: any follow-up delivery for `(sid, N)` during a run of
consecutive ticks happens on the calendar day of
`appointment_date - N` days, for an active schedule found in the (constant)
follow-up registry. -/
theorem runTicks_fup_delivery :
    ∀ (n : Nat) (st : SchedulerState) (start : Int) (d : Delivery),
      d ∈ (runTicks st start n).2 → ∀ (sid : String) (N : Int),
      d.act = JobAction.fup sid N →
      ∃ s, st.followup_schedules.find? (fun x => x.id == sid) = some s ∧
        s.is_active = true ∧
        d.at_ / 86400 = (s.appointment_date - N * 86400) / 86400 := by
  intro n
  induction n with
  | zero => intro st start d hd sid N hact; simp [runTicks] at hd
  | succ n ih =>
    intro st start d hd sid N hact
    simp only [runTicks] at hd
    rw [List.mem_append] at hd
    rcases hd with hd | hd
    · have h := runJobs_fup_delivery st.jobs start st d hd sid N hact
      obtain ⟨hat, s, hf, hia, hday⟩ := h
      exact ⟨s, hf, hia, by rw [hat]; exact hday.symm⟩
    · have h := ih (run_pending st start).1 (start + 1) d hd sid N hact
      obtain ⟨s, hf, hia, hday⟩ := h
      rw [run_pending_fups] at hf
      exact ⟨s, hf, hia, hday⟩

/-- Equality test of two follow-up job actions with the same schedule id
reduces to equality of the offsets. -/
theorem beq_fup_fup (sid : String) (m N : Int) :
    (JobAction.fup sid m == JobAction.fup sid N) = (m == N) := by
  by_cases hm : m = N
  · subst hm; simp
  · have h1 : (JobAction.fup sid m == JobAction.fup sid N) = false := by
      rw [beq_eq_false_iff_ne]
      intro h
      exact hm (by simpa using h)
    have h2 : (m == N) = false := beq_eq_false_iff_ne.mpr hm
    rw [h1, h2]

/-- The follow-up jobs registered by `add_followup_schedule` satisfy the tick
invariant from any starting tick not before the instant after the add. -/
theorem fupJobs_inv (offsets : List Int) (sid : String) (appt now start : Int)
    (hstart : start ≤ now + 1) :
    ∀ j ∈ (offsets.filter fun n => decide (now < appt - n * 86400)).map
        (fun n => (⟨32400, nextAfter now 32400, JobAction.fup sid n⟩ : Job)),
      JInv start j := by
  intro j hj
  obtain ⟨m, _, rfl⟩ := List.mem_map.mp hj
  refine ⟨by norm_num, nextAfter_emod now 32400 (by norm_num), ?_⟩
  have := nextAfter_gt now 32400
  show start ≤ nextAfter now 32400
  omega

/-- **C3** (amended): after adding a follow-up schedule with pairwise-distinct
reminder offsets, a reminder for `(schedule, N)` is delivered at most once
over any run of consecutive ticks, and only on the calendar day equal to
`appointment_date - N` days, under the active-schedule guard.  The source
checks that the reminder instant is in the future at registration time only;
it does not re-check that the appointment is still in the future when the
daily check fires (see the counterexample). -/
theorem followup_reminder_once_on_reminder_day
    (sid atype atime loc notes : String) (appt : Int)
    (rdbOpt : Option (List Int)) (addNow start : Int) (N : Int) (n : Nat)
    (hnodup : (rdbOpt.getD [1, 3, 7]).Nodup)
    (hstart : start ≤ addNow + 1) :
    fupPairCount
      (runTicks (add_followup_schedule emptyState sid atype appt atime loc
        notes rdbOpt addNow).1 start n).2 sid N ≤ 1
    ∧ (runTicks (add_followup_schedule emptyState sid atype appt atime loc
        notes rdbOpt addNow).1 start n).2.filter
        (fun d => d.act == JobAction.fup sid N
          && !(d.at_ / 86400 == (appt - N * 86400) / 86400)) = [] := by
  have hday : ∀ d ∈ (runTicks (add_followup_schedule emptyState sid atype appt
      atime loc notes rdbOpt addNow).1 start n).2,
      (d.act == JobAction.fup sid N) = true →
      d.at_ / 86400 = (appt - N * 86400) / 86400 := by
    intro d hd hb
    have hact : d.act = JobAction.fup sid N := by simpa using hb
    obtain ⟨s, hf, _, hdy⟩ := runTicks_fup_delivery n _ start d hd sid N hact
    have hsched : (add_followup_schedule emptyState sid atype appt atime loc
        notes rdbOpt addNow).1.followup_schedules
        = [⟨sid, atype, appt, atime, loc, notes, rdbOpt.getD [1, 3, 7],
            true, addNow⟩] := rfl
    rw [hsched] at hf
    simp [List.find?] at hf
    rw [← hf] at hdy
    exact hdy
  have hjobs : (add_followup_schedule emptyState sid atype appt atime loc
      notes rdbOpt addNow).1.jobs
      = ((rdbOpt.getD [1, 3, 7]).filter fun m =>
          decide (addNow < appt - m * 86400)).map
        (fun m => (⟨32400, nextAfter addNow 32400, JobAction.fup sid m⟩ :
          Job)) := rfl
  constructor
  · have hcong : (runTicks (add_followup_schedule emptyState sid atype appt
        atime loc notes rdbOpt addNow).1 start n).2.filter
          (fun d => d.act == JobAction.fup sid N)
        = (runTicks (add_followup_schedule emptyState sid atype appt atime loc
            notes rdbOpt addNow).1 start n).2.filter
          (dKey (fun a _ => a == JobAction.fup sid N)
            ((appt - N * 86400) / 86400)) := by
      apply List.filter_congr
      intro d hd
      by_cases hb : (d.act == JobAction.fup sid N) = true
      · have hdd := hday d hd hb
        simp [dKey, hb, hdd]
      · have hb' : (d.act == JobAction.fup sid N) = false := by simpa using hb
        simp [dKey, hb']
    have hinv : ∀ j ∈ (add_followup_schedule emptyState sid atype appt atime
        loc notes rdbOpt addNow).1.jobs, JInv start j := by
      rw [hjobs]
      exact fupJobs_inv _ sid appt addNow start hstart
    unfold fupPairCount
    rw [hcong]
    refine le_trans (runTicks_count (fun a _ => a == JobAction.fup sid N)
      ((appt - N * 86400) / 86400) n _ start hinv) ?_
    rw [hjobs]
    refine le_trans (length_filter_and_le _ _ _) ?_
    rw [List.filter_map, List.length_map]
    have hpt : (((rdbOpt.getD [1, 3, 7]).filter fun m =>
        decide (addNow < appt - m * 86400)).filter
          ((fun j : Job => j.act == JobAction.fup sid N) ∘ fun m =>
            (⟨32400, nextAfter addNow 32400, JobAction.fup sid m⟩ : Job)))
        = ((rdbOpt.getD [1, 3, 7]).filter fun m =>
            decide (addNow < appt - m * 86400)).filter (fun m => m == N) := by
      apply List.filter_congr
      intro m _
      show (JobAction.fup sid m == JobAction.fup sid N) = (m == N)
      exact beq_fup_fup sid m N
    rw [hpt, ← count_eq_len_filter]
    exact le_trans (List.Sublist.count_le (List.filter_sublist _) N)
      (List.nodup_iff_count_le_one.mp hnodup N)
  · rw [List.filter_eq_nil]
    intro d hd h
    rw [Bool.and_eq_true] at h
    obtain ⟨h1, h2⟩ := h
    rw [Bool.not_eq_true', beq_eq_false_iff_ne] at h2
    exact h2 (hday d hd h1)

/-- Witness for C3: a concrete follow-up schedule ten days out with two
distinct offsets, run over many ticks. -/
theorem followup_reminder_once_on_reminder_day_witness :
    fupPairCount
      (runTicks (add_followup_schedule emptyState "f3" "Dermatology" 864000
        "09:30" "" "" (some [1, 3]) 0).1 1 100000).2 "f3" 3 ≤ 1
    ∧ (runTicks (add_followup_schedule emptyState "f3" "Dermatology" 864000
        "09:30" "" "" (some [1, 3]) 0).1 1 100000).2.filter
        (fun d => d.act == JobAction.fup "f3" 3
          && !(d.at_ / 86400 == (864000 - 3 * 86400) / 86400)) = [] :=
  followup_reminder_once_on_reminder_day "f3" "Dermatology" "09:30" "" ""
    864000 (some [1, 3]) 0 1 3 100000 (by decide) (by decide)

/-- **C3 counterexample**: a follow-up with offset `N = 0` for an appointment
at 08:30 of day 0, added at midnight: the 09:00 daily check of day 0 delivers
the reminder at instant 32400 although the appointment (instant 30600) is
already in the past at that moment — the claim's "only while appointmentDate
is still in the future at the time the daily check runs" is false. -/
theorem followup_fires_after_appointment_passed :
    (runTicks (add_followup_schedule emptyState "f1" "Cardiology" 30600
        "08:30" "" "" (some [0]) 0).1 32400 1).2
      = [⟨JobAction.fup "f1" 0, 32400, 32400⟩]
    ∧ (30600 : Int) < 32400 := by
  constructor
  · decide
  · decide

/-! ### Claim C1: expiry deactivates and the schedule never fires again -/

/-- If schedule `sid` is present and inactive, any `_send_medication_reminder`
call (for any target) leaves that entry untouched, and a call targeting `sid`
itself delivers nothing. -/
theorem send_med_inactive (st : SchedulerState) (sid' : String) (now : Int)
    (sid : String) (s : MedicationSchedule)
    (h : st.medication_schedules.find? (fun x => x.id == sid) = some s)
    (hia : s.is_active = false) :
    (send_medication_reminder st sid' now).1.medication_schedules.find?
        (fun x => x.id == sid) = some s
    ∧ (sid' = sid → (send_medication_reminder st sid' now).2 = false) := by
  have hsid : s.id = sid := by
    have := List.find?_some h
    exact beq_iff_eq.mp this
  unfold send_medication_reminder
  cases hf : st.medication_schedules.find? (fun x => x.id == sid') with
  | none => exact ⟨h, fun _ => rfl⟩
  | some s' =>
    dsimp only
    by_cases hia' : s'.is_active = false
    · rw [if_pos hia']
      exact ⟨h, fun _ => rfl⟩
    · rw [if_neg hia']
      have hne : sid' ≠ sid := by
        intro he
        subst he
        rw [hf] at h
        injection h with h2
        subst h2
        exact hia' hia
      have hne' : (s.id == sid') = false := by
        rw [beq_eq_false_iff_ne, hsid]
        exact Ne.symm hne
      split
      · constructor
        · show (st.medication_schedules.map fun x =>
            if x.id == sid' then { x with is_active := false } else x).find?
              (fun x => x.id == sid) = some s
          rw [find?_map_deact_med, h]
          simp only [Option.map_some']
          rw [hne']
          simp
        · exact fun _ => rfl
      · exact ⟨h, fun he => absurd he hne⟩

/-- Over one `run_pending` pass, a present-and-inactive medication schedule
stays exactly as it is and receives no delivery. -/
theorem runJobs_inactive :
    ∀ (js : List Job) (now : Int) (st : SchedulerState) (sid : String)
      (s : MedicationSchedule),
      st.medication_schedules.find? (fun x => x.id == sid) = some s →
      s.is_active = false →
      (runJobs js now st).2.1.medication_schedules.find?
          (fun x => x.id == sid) = some s
      ∧ (runJobs js now st).2.2.filter
          (fun d => d.act == JobAction.med sid) = [] := by
  intro js
  induction js with
  | nil => intro now st sid s h _; exact ⟨h, rfl⟩
  | cons j js ih =>
    intro now st sid s h hia
    by_cases hdue : j.nextRun ≤ now
    · simp only [runJobs, if_pos hdue]
      rw [List.filter_append]
      have hhead : (runJob st now j).1.medication_schedules.find?
          (fun x => x.id == sid) = some s
          ∧ (runJob st now j).2.filter
              (fun d => d.act == JobAction.med sid) = [] := by
        unfold runJob
        cases hj : j.act with
        | med sid' =>
          dsimp only
          have hs := send_med_inactive st sid' now sid s h hia
          refine ⟨hs.1, ?_⟩
          by_cases hdel : (send_medication_reminder st sid' now).2 = true
          · rw [if_pos hdel]
            have hne : sid' ≠ sid := by
              intro he
              rw [hs.2 he] at hdel
              cases hdel
            simp [hne]
          · rw [if_neg hdel]
            rfl
        | fup sid' n' =>
          dsimp only
          refine ⟨h, ?_⟩
          split <;> simp
      have hrest := ih now (runJob st now j).1 sid s hhead.1 hia
      refine ⟨hrest.1, ?_⟩
      rw [hhead.2, hrest.2]
      rfl
    · simp only [runJobs, if_neg hdue]
      exact ih now st sid s h hia

/-- Over any run of consecutive ticks, a present-and-inactive medication
schedule never produces a delivery. -/
theorem runTicks_inactive :
    ∀ (n : Nat) (st : SchedulerState) (start : Int) (sid : String)
      (s : MedicationSchedule),
      st.medication_schedules.find? (fun x => x.id == sid) = some s →
      s.is_active = false →
      (runTicks st start n).2.filter
        (fun d => d.act == JobAction.med sid) = [] := by
  intro n
  induction n with
  | zero => intro st start sid s _ _; rfl
  | succ n ih =>
    intro st start sid s h hia
    simp only [runTicks, run_pending]
    rw [List.filter_append]
    have h1 := runJobs_inactive st.jobs start st sid s h hia
    have h2 := ih { (runJobs st.jobs start st).2.1 with
        jobs := (runJobs st.jobs start st).1 } (start + 1) sid s h1.1 hia
    rw [h1.2, h2]
    rfl

/-- **C1**: when the dispatch routine runs for an active medication schedule
at an instant past its `end_date`, it delivers nothing, sets `is_active` to
`false`, persists the snapshot of the registries — and from then on no run of
the polling loop ever delivers a reminder for that schedule again. -/
theorem med_expired_deactivates_and_never_fires (st : SchedulerState)
    (sid : String) (s : MedicationSchedule) (now : Int)
    (hfind : st.medication_schedules.find? (fun x => x.id == sid) = some s)
    (hact : s.is_active = true) (hexp : s.end_date < now) :
    (send_medication_reminder st sid now).2 = false
    ∧ (send_medication_reminder st sid now).1.medication_schedules.find?
        (fun x => x.id == sid) = some { s with is_active := false }
    ∧ (send_medication_reminder st sid now).1.savedFile
        = saveData
            (send_medication_reminder st sid now).1.medication_schedules
            (send_medication_reminder st sid now).1.followup_schedules
    ∧ ∀ (start : Int) (n : Nat),
        (runTicks (send_medication_reminder st sid now).1 start n).2.filter
          (fun d => d.act == JobAction.med sid) = [] := by
  have hsid : s.id = sid := by
    have := List.find?_some hfind
    exact beq_iff_eq.mp this
  have hbranch : send_medication_reminder st sid now
      = (save_schedules { st with medication_schedules :=
          st.medication_schedules.map fun x =>
            if x.id == sid then { x with is_active := false } else x },
         false) := by
    unfold send_medication_reminder
    rw [hfind]
    dsimp only
    rw [if_neg (by simp [hact]), if_pos hexp]
  have hfind2 : (send_medication_reminder st sid now).1.medication_schedules.find?
      (fun x => x.id == sid) = some { s with is_active := false } := by
    rw [hbranch]
    show (st.medication_schedules.map fun x =>
        if x.id == sid then { x with is_active := false } else x).find?
        (fun x => x.id == sid) = some { s with is_active := false }
    rw [find?_map_deact_med, hfind]
    simp only [Option.map_some']
    rw [show (s.id == sid) = true by rw [hsid]; simp]
    simp
  refine ⟨by rw [hbranch], hfind2, by rw [hbranch]; rfl, ?_⟩
  intro start n
  exact runTicks_inactive n _ start sid { s with is_active := false } hfind2
    rfl

/-- Witness for C1: the demo schedule `"m1"` with `end_date = 100` dispatched
at instant 200. -/
theorem med_expired_deactivates_and_never_fires_witness :
    (send_medication_reminder demoState "m1" 200).2 = false
    ∧ (send_medication_reminder demoState "m1" 200).1.medication_schedules.find?
        (fun x => x.id == "m1") = some { demoMed1 with is_active := false }
    ∧ (send_medication_reminder demoState "m1" 200).1.savedFile
        = saveData
            (send_medication_reminder demoState "m1" 200).1.medication_schedules
            (send_medication_reminder demoState "m1" 200).1.followup_schedules
    ∧ (runTicks (send_medication_reminder demoState "m1" 200).1 200 10).2.filter
        (fun d => d.act == JobAction.med "m1") = [] := by
  have h := med_expired_deactivates_and_never_fires demoState "m1" demoMed1 200
    (by decide) (by decide) (by decide)
  exact ⟨h.1, h.2.1, h.2.2.1, h.2.2.2 200 10⟩

/-! ### Claims C4 and C5: persistence round-trip and loading -/

/-- Reading back a list of well-formed records consumes it entirely. -/
theorem takeSomes_map_some {α : Type} (l : List α) :
    takeSomes (l.map some) = (l, true) := by
  induction l with
  | nil => rfl
  | cons a as ih => simp [takeSomes, ih]

/-- Loading the record saved for a medication schedule loses exactly the
`chat_id` field. -/
theorem recToMed_medToRec (m : MedicationSchedule) :
    recToMed (medToRec m) = { m with chat_id := none } := by
  cases m; rfl

/-- Loading the record saved for a follow-up schedule is lossless. -/
theorem recToFup_fupToRec (f : FollowUpSchedule) :
    recToFup (fupToRec f) = f := by
  cases f; rfl

/-- **C4** (amended): `_save_schedules` followed by `_load_schedules`
reproduces every follow-up schedule identically and every medication schedule
identically except for its recipient: `chat_id` is not serialised, so it
comes back as `None`.  No error is raised. -/
theorem save_load_roundtrip (meds : List MedicationSchedule)
    (fups : List FollowUpSchedule) :
    load_schedules (saveData meds fups)
      = ⟨meds.map (fun m => { m with chat_id := none }), fups, false⟩ := by
  have h1 : (meds.map fun s => some (medToRec s))
      = (meds.map medToRec).map some := by
    rw [List.map_map]; rfl
  have h2 : (fups.map fun s => some (fupToRec s))
      = (fups.map fupToRec).map some := by
    rw [List.map_map]; rfl
  unfold load_schedules saveData
  rw [h1, h2]
  dsimp only
  rw [takeSomes_map_some, takeSomes_map_some]
  dsimp only
  rw [if_pos rfl]
  congr 1
  · rw [List.map_map]
    apply List.map_congr_left
    intro m _
    exact recToMed_medToRec m
  · rw [List.map_map]
    have hid : (recToFup ∘ fupToRec) = id := by
      funext f
      exact recToFup_fupToRec f
    rw [hid, List.map_id]

/-- **C4 counterexample**: a schedule carrying a chat id does not round-trip:
after save-then-load its recipient is gone, so the loaded set is not
identical to the saved one. -/
theorem roundtrip_drops_chat_id :
    demoMed1.chat_id = some "chat1"
    ∧ (load_schedules (saveData [demoMed1] [])).medications ≠ [demoMed1] := by
  decide

/-- **C5** (amended): `_load_schedules` never raises: absent storage and
unparseable JSON yield empty registries without error, and a malformed record
aborts the loop silently, keeping exactly the medication records before it
and dropping all follow-ups. -/
theorem load_never_raises_and_keeps_initial_records :
    (∀ f : FileState, (load_schedules f).raised = false)
    ∧ load_schedules FileState.missing = ⟨[], [], false⟩
    ∧ load_schedules FileState.invalidJson = ⟨[], [], false⟩
    ∧ ∀ (ms : List MedRecord) (bad : List (Option MedRecord))
        (fs : List (Option FupRecord)),
        load_schedules (FileState.parsed (ms.map some ++ none :: bad) fs)
          = ⟨ms.map recToMed, [], false⟩ := by
  refine ⟨?_, rfl, rfl, ?_⟩
  · intro f
    cases f with
    | missing => rfl
    | invalidJson => rfl
    | parsed ms fs =>
      unfold load_schedules
      dsimp only
      split <;> rfl
  · intro ms bad fs
    have hts : takeSomes (ms.map some ++ none :: bad) = (ms, false) := by
      induction ms with
      | nil => rfl
      | cons a as ih => simp [takeSomes, ih]
    unfold load_schedules
    dsimp only
    rw [hts]
    dsimp only
    rw [if_neg (by simp)]

/-- **C5 counterexample**: a snapshot whose second medication record is
malformed (and which still contains a perfectly well-formed follow-up
record): the loader raises no error and silently returns the partial state —
one medication, zero follow-ups — contradicting "fails with
CorruptStateError, does not silently return partial data". -/
theorem load_swallows_malformed_content :
    (load_schedules (FileState.parsed [some (medToRec demoMed1), none]
        [some (fupToRec demoFup1)])).raised = false
    ∧ load_schedules (FileState.parsed [some (medToRec demoMed1), none]
        [some (fupToRec demoFup1)])
      = ⟨[recToMed (medToRec demoMed1)], [], false⟩ := by
  exact ⟨rfl, rfl⟩

/-! ### Claims C6, C7, C8: facade operations -/

/-- After a dict insertion, looking up the inserted key finds the inserted
schedule. -/
theorem insertMed_find?_self (l : List MedicationSchedule)
    (s : MedicationSchedule) :
    (insertMed l s).find? (fun x => x.id == s.id) = some s := by
  induction l with
  | nil => simp [insertMed, List.find?]
  | cons x xs ih =>
    unfold insertMed
    by_cases h : (x.id == s.id) = true
    · rw [if_pos h]
      simp [List.find?]
    · rw [if_neg h]
      have h' : (x.id == s.id) = false := by simpa using h
      rw [List.find?_cons, h']
      exact ih

/-- **C6** (amended): `add_medication_schedule` performs no validation at all:
for any inputs — including ill-formed `times` entries and non-positive
`duration_days` — the call succeeds, stores an active schedule with exactly
the given fields (with `end_date = start_date + duration_days` days and the
recipient dropped when falsy), and persists the snapshot. -/
theorem add_medication_schedule_never_validates (st : SchedulerState)
    (sid name dosage : String) (times : List String) (dur : Int)
    (so : Option Int) (notes : String) (chat : Option String) (now : Int) :
    (add_medication_schedule st sid name dosage times dur so notes chat
      now).2 = sid
    ∧ (add_medication_schedule st sid name dosage times dur so notes chat
        now).1.medication_schedules.find? (fun x => x.id == sid)
      = some ⟨sid, name, dosage, times, dur, so.getD now,
          so.getD now + dur * 86400, notes, true, now,
          match chat with
          | some c => if c = "" then none else some c
          | none => none⟩
    ∧ (add_medication_schedule st sid name dosage times dur so notes chat
        now).1.savedFile
      = saveData
          (add_medication_schedule st sid name dosage times dur so notes chat
            now).1.medication_schedules
          (add_medication_schedule st sid name dosage times dur so notes chat
            now).1.followup_schedules := by
  refine ⟨rfl, ?_, rfl⟩
  exact insertMed_find?_self st.medication_schedules
    ⟨sid, name, dosage, times, dur, so.getD now, so.getD now + dur * 86400,
     notes, true, now,
     match chat with
     | some c => if c = "" then none else some c
     | none => none⟩

/-- **C6 counterexample**: `"25:99"` is not a well-formed HH:MM time and
`duration_days = 0` is not positive, yet the call succeeds and the invalid
schedule is stored active and persisted — no `ValidationError` exists in the
source. -/
theorem add_medication_schedule_accepts_invalid_input :
    parseHHMM "25:99" = none
    ∧ (add_medication_schedule emptyState "m1" "Med" "1mg" ["25:99"] 0
        (some 0) "" none 0).2 = "m1"
    ∧ (add_medication_schedule emptyState "m1" "Med" "1mg" ["25:99"] 0
        (some 0) "" none 0).1.medication_schedules
      = [⟨"m1", "Med", "1mg", ["25:99"], 0, 0, 0, "", true, 0, none⟩]
    ∧ (add_medication_schedule emptyState "m1" "Med" "1mg" ["25:99"] 0
        (some 0) "" none 0).1.savedFile
      = saveData [⟨"m1", "Med", "1mg", ["25:99"], 0, 0, 0, "", true, 0, none⟩]
          [] := by
  decide

/-- The id test is unchanged by composing with the deactivating update on the
medication registry. -/
theorem deact_comp_id_med (sid : String) :
    ((fun x : MedicationSchedule => x.id == sid) ∘ fun x =>
      if x.id == sid then { x with is_active := false } else x)
    = fun x : MedicationSchedule => x.id == sid := by
  funext x
  simp only [Function.comp_apply]
  split <;> rfl

/-- The id test is unchanged by composing with the deactivating update on the
follow-up registry. -/
theorem deact_comp_id_fup (sid : String) :
    ((fun x : FollowUpSchedule => x.id == sid) ∘ fun x =>
      if x.id == sid then { x with is_active := false } else x)
    = fun x : FollowUpSchedule => x.id == sid := by
  funext x
  simp only [Function.comp_apply]
  split <;> rfl

/-- Applying the deactivating update twice is the same as applying it once
(medication registry). -/
theorem deact_map_idem_med (l : List MedicationSchedule) (sid : String) :
    ((l.map fun x => if x.id == sid then { x with is_active := false }
        else x).map fun x =>
      if x.id == sid then { x with is_active := false } else x)
    = l.map fun x => if x.id == sid then { x with is_active := false }
        else x := by
  rw [List.map_map]
  apply List.map_congr_left
  intro x _
  simp only [Function.comp_apply]
  by_cases h : (x.id == sid) = true
  · rw [if_pos h, if_pos h]
  · rw [if_neg h, if_neg h]

/-- Applying the deactivating update twice is the same as applying it once
(follow-up registry). -/
theorem deact_map_idem_fup (l : List FollowUpSchedule) (sid : String) :
    ((l.map fun x => if x.id == sid then { x with is_active := false }
        else x).map fun x =>
      if x.id == sid then { x with is_active := false } else x)
    = l.map fun x => if x.id == sid then { x with is_active := false }
        else x := by
  rw [List.map_map]
  apply List.map_congr_left
  intro x _
  simp only [Function.comp_apply]
  by_cases h : (x.id == sid) = true
  · rw [if_pos h, if_pos h]
  · rw [if_neg h, if_neg h]

/-- `stop_medication_schedule` on a present id: explicit result. -/
theorem stop_med_found_eq (st : SchedulerState) (sid : String)
    (hany : st.medication_schedules.any (fun x => x.id == sid) = true) :
    stop_medication_schedule st sid
      = (save_schedules { st with medication_schedules :=
          st.medication_schedules.map fun x =>
            if x.id == sid then { x with is_active := false } else x },
         true) := by
  unfold stop_medication_schedule
  rw [if_pos hany]

/-- `stop_followup_schedule` on a present id: explicit result. -/
theorem stop_fup_found_eq (st : SchedulerState) (sid : String)
    (hany : st.followup_schedules.any (fun x => x.id == sid) = true) :
    stop_followup_schedule st sid
      = (save_schedules { st with followup_schedules :=
          st.followup_schedules.map fun x =>
            if x.id == sid then { x with is_active := false } else x },
         true) := by
  unfold stop_followup_schedule
  rw [if_pos hany]

/-- **C7**: stopping a schedule (either kind) deactivates it and persists the
snapshot, reporting success; an unknown id is reported as a failure
(`False` return — the source signals not-found to the caller this way rather
than via an exception type) leaving the state untouched; and stopping an
already-stopped schedule is idempotent: the second call succeeds and changes
nothing. -/
theorem stop_schedule_spec (st : SchedulerState) (sid : String) :
    ((st.medication_schedules.find? (fun x => x.id == sid) = none →
        stop_medication_schedule st sid = (st, false))
      ∧ ∀ s, st.medication_schedules.find? (fun x => x.id == sid) = some s →
          (stop_medication_schedule st sid).2 = true
          ∧ (stop_medication_schedule st sid).1.medication_schedules.find?
              (fun x => x.id == sid) = some { s with is_active := false }
          ∧ (stop_medication_schedule st sid).1.savedFile
            = saveData
                (stop_medication_schedule st sid).1.medication_schedules
                (stop_medication_schedule st sid).1.followup_schedules
          ∧ stop_medication_schedule (stop_medication_schedule st sid).1 sid
            = ((stop_medication_schedule st sid).1, true))
    ∧ ((st.followup_schedules.find? (fun x => x.id == sid) = none →
        stop_followup_schedule st sid = (st, false))
      ∧ ∀ s, st.followup_schedules.find? (fun x => x.id == sid) = some s →
          (stop_followup_schedule st sid).2 = true
          ∧ (stop_followup_schedule st sid).1.followup_schedules.find?
              (fun x => x.id == sid) = some { s with is_active := false }
          ∧ (stop_followup_schedule st sid).1.savedFile
            = saveData
                (stop_followup_schedule st sid).1.medication_schedules
                (stop_followup_schedule st sid).1.followup_schedules
          ∧ stop_followup_schedule (stop_followup_schedule st sid).1 sid
            = ((stop_followup_schedule st sid).1, true)) := by
  constructor
  · constructor
    · intro h
      have hany : ¬ (st.medication_schedules.any
          (fun x => x.id == sid) = true) := by
        intro hany
        rw [List.any_eq_true] at hany
        obtain ⟨x, hx, hpx⟩ := hany
        rw [List.find?_eq_none] at h
        exact h x hx hpx
      unfold stop_medication_schedule
      rw [if_neg hany]
    · intro s hs
      have hp : (s.id == sid) = true := by
        have := List.find?_some hs
        exact this
      have hany : st.medication_schedules.any
          (fun x => x.id == sid) = true := by
        rw [List.any_eq_true]
        exact ⟨s, List.mem_of_find?_eq_some hs, hp⟩
      have hstop := stop_med_found_eq st sid hany
      have hany2 : ((st.medication_schedules.map fun x =>
          if x.id == sid then { x with is_active := false } else x).any
            (fun x => x.id == sid)) = true := by
        rw [List.any_map, deact_comp_id_med]
        exact hany
      refine ⟨by rw [hstop], ?_, by rw [hstop]; rfl, ?_⟩
      · rw [hstop]
        show (st.medication_schedules.map fun x =>
            if x.id == sid then { x with is_active := false } else x).find?
            (fun x => x.id == sid) = some { s with is_active := false }
        rw [find?_map_deact_med, hs]
        simp only [Option.map_some']
        rw [hp]
        simp
      · rw [hstop]
        have hstop2 := stop_med_found_eq
          (save_schedules { st with medication_schedules :=
            st.medication_schedules.map fun x =>
              if x.id == sid then { x with is_active := false } else x }) sid
          hany2
        rw [hstop2]
        show (save_schedules { st with medication_schedules :=
            ((st.medication_schedules.map fun x =>
              if x.id == sid then { x with is_active := false } else x).map
                fun x =>
              if x.id == sid then { x with is_active := false } else x) },
          true) = _
        rw [deact_map_idem_med]
  · constructor
    · intro h
      have hany : ¬ (st.followup_schedules.any
          (fun x => x.id == sid) = true) := by
        intro hany
        rw [List.any_eq_true] at hany
        obtain ⟨x, hx, hpx⟩ := hany
        rw [List.find?_eq_none] at h
        exact h x hx hpx
      unfold stop_followup_schedule
      rw [if_neg hany]
    · intro s hs
      have hp : (s.id == sid) = true := by
        have := List.find?_some hs
        exact this
      have hany : st.followup_schedules.any
          (fun x => x.id == sid) = true := by
        rw [List.any_eq_true]
        exact ⟨s, List.mem_of_find?_eq_some hs, hp⟩
      have hstop := stop_fup_found_eq st sid hany
      have hany2 : ((st.followup_schedules.map fun x =>
          if x.id == sid then { x with is_active := false } else x).any
            (fun x => x.id == sid)) = true := by
        rw [List.any_map, deact_comp_id_fup]
        exact hany
      refine ⟨by rw [hstop], ?_, by rw [hstop]; rfl, ?_⟩
      · rw [hstop]
        show (st.followup_schedules.map fun x =>
            if x.id == sid then { x with is_active := false } else x).find?
            (fun x => x.id == sid) = some { s with is_active := false }
        rw [find?_map_deact_fup, hs]
        simp only [Option.map_some']
        rw [hp]
        simp
      · rw [hstop]
        have hstop2 := stop_fup_found_eq
          (save_schedules { st with followup_schedules :=
            st.followup_schedules.map fun x =>
              if x.id == sid then { x with is_active := false } else x }) sid
          hany2
        rw [hstop2]
        show (save_schedules { st with followup_schedules :=
            ((st.followup_schedules.map fun x =>
              if x.id == sid then { x with is_active := false } else x).map
                fun x =>
              if x.id == sid then { x with is_active := false } else x) },
          true) = _
        rw [deact_map_idem_fup]

/-- Witness for C7: stopping the active demo schedules, an unknown id, and
stopping twice. -/
theorem stop_schedule_spec_witness :
    stop_medication_schedule demoState "zz" = (demoState, false)
    ∧ (stop_medication_schedule demoState "m1").2 = true
    ∧ (stop_medication_schedule demoState "m1").1.medication_schedules.find?
        (fun x => x.id == "m1") = some { demoMed1 with is_active := false }
    ∧ (stop_medication_schedule demoState "m1").1.savedFile
      = saveData
          (stop_medication_schedule demoState "m1").1.medication_schedules
          (stop_medication_schedule demoState "m1").1.followup_schedules
    ∧ stop_medication_schedule (stop_medication_schedule demoState "m1").1 "m1"
      = ((stop_medication_schedule demoState "m1").1, true)
    ∧ stop_followup_schedule demoState "zz" = (demoState, false)
    ∧ (stop_followup_schedule demoState "f1").2 = true
    ∧ stop_followup_schedule (stop_followup_schedule demoState "f1").1 "f1"
      = ((stop_followup_schedule demoState "f1").1, true) := by
  have h1 := (stop_schedule_spec demoState "zz").1.1 (by decide)
  have h2 := (stop_schedule_spec demoState "m1").1.2 demoMed1 (by decide)
  have h3 := (stop_schedule_spec demoState "zz").2.1 (by decide)
  have h4 := (stop_schedule_spec demoState "f1").2.2 demoFup1 (by decide)
  exact ⟨h1, h2.1, h2.2.1, h2.2.2.1, h2.2.2.2, h3, h4.1, h4.2.2.2⟩

/-- **C8**: `get_active_schedules` returns exactly the medication schedules
with `is_active` and `now ≤ end_date`, and exactly the follow-up schedules
with `is_active` and a strictly future appointment — nothing else. -/
theorem get_active_schedules_spec (st : SchedulerState) (now : Int) :
    (∀ s : MedicationSchedule, s ∈ (get_active_schedules st now).1 ↔
      s ∈ st.medication_schedules ∧ s.is_active = true ∧ now ≤ s.end_date)
    ∧ ∀ s : FollowUpSchedule, s ∈ (get_active_schedules st now).2 ↔
      s ∈ st.followup_schedules ∧ s.is_active = true
        ∧ now < s.appointment_date := by
  constructor <;> intro s <;>
    simp [get_active_schedules, List.mem_filter, and_assoc]

/-! ### Claims C9 and C10: absorption of inactivity and the stop frame -/

/-- Dict insertion with a key fresh for the registry appends. -/
theorem insertMed_fresh (l : List MedicationSchedule) (s : MedicationSchedule)
    (hfresh : ∀ x ∈ l, x.id ≠ s.id) : insertMed l s = l ++ [s] := by
  induction l with
  | nil => rfl
  | cons x xs ih =>
    unfold insertMed
    rw [if_neg (by simp [hfresh x (List.mem_cons_self x xs)])]
    rw [ih fun y hy => hfresh y (List.mem_cons_of_mem x hy)]
    rfl

/-- Dict insertion with a fresh key appends (follow-up registry). -/
theorem insertFup_fresh (l : List FollowUpSchedule) (s : FollowUpSchedule)
    (hfresh : ∀ x ∈ l, x.id ≠ s.id) : insertFup l s = l ++ [s] := by
  induction l with
  | nil => rfl
  | cons x xs ih =>
    unfold insertFup
    rw [if_neg (by simp [hfresh x (List.mem_cons_self x xs)])]
    rw [ih fun y hy => hfresh y (List.mem_cons_of_mem x hy)]
    rfl

/-- **C9**: inactivity is an absorbing state: across every operation step of
the system (add with a fresh uuid, stop, background tick, save), a schedule —
medication or follow-up — found inactive before the step is still found, and
still inactive, after it; no operation ever sets `is_active` back to true. -/
theorem inactive_is_absorbing (st st' : SchedulerState) (hstep : Step st st')
    (sid : String) :
    (((st.medication_schedules.find? (fun x => x.id == sid)).map
        MedicationSchedule.is_active) = some false →
      ((st'.medication_schedules.find? (fun x => x.id == sid)).map
        MedicationSchedule.is_active) = some false)
    ∧ (((st.followup_schedules.find? (fun x => x.id == sid)).map
        FollowUpSchedule.is_active) = some false →
      ((st'.followup_schedules.find? (fun x => x.id == sid)).map
        FollowUpSchedule.is_active) = some false) := by
  cases hstep with
  | addMed sid' name dosage times dur so notes chat now hfresh =>
    constructor
    · intro h
      obtain ⟨s, hf, hia⟩ : ∃ s, st.medication_schedules.find?
          (fun x => x.id == sid) = some s ∧ s.is_active = false := by
        cases hfo : st.medication_schedules.find? (fun x => x.id == sid) with
        | none => rw [hfo] at h; cases h
        | some s =>
          rw [hfo] at h
          simp only [Option.map_some', Option.some.injEq] at h
          exact ⟨s, rfl, h⟩
      show (((insertMed st.medication_schedules _).find?
          (fun x => x.id == sid)).map MedicationSchedule.is_active)
        = some false
      rw [insertMed_fresh _ _ hfresh, find?_append_left hf]
      simp [hia]
    · intro h
      exact h
  | addFup sid' atype adate atime loc notes rdb now hfresh =>
    constructor
    · intro h
      exact h
    · intro h
      obtain ⟨s, hf, hia⟩ : ∃ s, st.followup_schedules.find?
          (fun x => x.id == sid) = some s ∧ s.is_active = false := by
        cases hfo : st.followup_schedules.find? (fun x => x.id == sid) with
        | none => rw [hfo] at h; cases h
        | some s =>
          rw [hfo] at h
          simp only [Option.map_some', Option.some.injEq] at h
          exact ⟨s, rfl, h⟩
      show (((insertFup st.followup_schedules _).find?
          (fun x => x.id == sid)).map FollowUpSchedule.is_active)
        = some false
      rw [insertFup_fresh _ _ hfresh, find?_append_left hf]
      simp [hia]
  | stopMed sid' =>
    by_cases hany : st.medication_schedules.any (fun x => x.id == sid')
        = true
    · rw [stop_med_found_eq st sid' hany]
      constructor
      · intro h
        obtain ⟨s, hf, hia⟩ : ∃ s, st.medication_schedules.find?
            (fun x => x.id == sid) = some s ∧ s.is_active = false := by
          cases hfo : st.medication_schedules.find? (fun x => x.id == sid) with
          | none => rw [hfo] at h; cases h
          | some s =>
            rw [hfo] at h
            simp only [Option.map_some', Option.some.injEq] at h
            exact ⟨s, rfl, h⟩
        show (((st.medication_schedules.map fun x =>
            if x.id == sid' then { x with is_active := false } else x).find?
              (fun x => x.id == sid)).map MedicationSchedule.is_active)
          = some false
        rw [find?_map_deact_med, hf]
        simp only [Option.map_some']
        split <;> simp [hia]
      · intro h
        exact h
    · have heq : stop_medication_schedule st sid' = (st, false) := by
        unfold stop_medication_schedule
        rw [if_neg hany]
      rw [heq]
      exact ⟨fun h => h, fun h => h⟩
  | stopFup sid' =>
    by_cases hany : st.followup_schedules.any (fun x => x.id == sid') = true
    · rw [stop_fup_found_eq st sid' hany]
      constructor
      · intro h
        exact h
      · intro h
        obtain ⟨s, hf, hia⟩ : ∃ s, st.followup_schedules.find?
            (fun x => x.id == sid) = some s ∧ s.is_active = false := by
          cases hfo : st.followup_schedules.find? (fun x => x.id == sid) with
          | none => rw [hfo] at h; cases h
          | some s =>
            rw [hfo] at h
            simp only [Option.map_some', Option.some.injEq] at h
            exact ⟨s, rfl, h⟩
        show (((st.followup_schedules.map fun x =>
            if x.id == sid' then { x with is_active := false } else x).find?
              (fun x => x.id == sid)).map FollowUpSchedule.is_active)
          = some false
        rw [find?_map_deact_fup, hf]
        simp only [Option.map_some']
        split <;> simp [hia]
    · have heq : stop_followup_schedule st sid' = (st, false) := by
        unfold stop_followup_schedule
        rw [if_neg hany]
      rw [heq]
      exact ⟨fun h => h, fun h => h⟩
  | tick now =>
    constructor
    · intro h
      obtain ⟨s, hf, hia⟩ : ∃ s, st.medication_schedules.find?
          (fun x => x.id == sid) = some s ∧ s.is_active = false := by
        cases hfo : st.medication_schedules.find? (fun x => x.id == sid) with
        | none => rw [hfo] at h; cases h
        | some s =>
          rw [hfo] at h
          simp only [Option.map_some', Option.some.injEq] at h
          exact ⟨s, rfl, h⟩
      have h1 := (runJobs_inactive st.jobs now st sid s hf hia).1
      show (((runJobs st.jobs now st).2.1.medication_schedules.find?
          (fun x => x.id == sid)).map MedicationSchedule.is_active)
        = some false
      rw [h1]
      simp [hia]
    · intro h
      rw [show (run_pending st now).1.followup_schedules
        = st.followup_schedules from run_pending_fups st now]
      exact h
  | saveOp =>
    exact ⟨fun h => h, fun h => h⟩

/-- Witness for C9: after stopping `"m1"`, the already-inactive `"m2"` and
`"f2"` are still present and inactive. -/
theorem inactive_is_absorbing_witness :
    (((stop_medication_schedule demoState "m1").1.medication_schedules.find?
        (fun x => x.id == "m2")).map MedicationSchedule.is_active)
      = some false
    ∧ (((stop_medication_schedule demoState "m1").1.followup_schedules.find?
        (fun x => x.id == "f2")).map FollowUpSchedule.is_active)
      = some false := by
  have h2 := inactive_is_absorbing demoState
    (stop_medication_schedule demoState "m1").1
    (Step.stopMed demoState "m1") "m2"
  have h3 := inactive_is_absorbing demoState
    (stop_medication_schedule demoState "m1").1
    (Step.stopMed demoState "m1") "f2"
  exact ⟨h2.1 (by decide), h3.2 (by decide)⟩

/-- **C10**: frame property of stopping: for an id present in the registry,
the stop operation touches only the `is_active` field of the entries with
that id (expressed by the record update `{ x with is_active := false }`,
which leaves every other field of that schedule unchanged); every other
entry, the other registry, and the job registry are untouched. -/
theorem stop_frame (st : SchedulerState) (sidM sidF : String)
    (hM : st.medication_schedules.any (fun x => x.id == sidM) = true)
    (hF : st.followup_schedules.any (fun x => x.id == sidF) = true) :
    ((stop_medication_schedule st sidM).1.followup_schedules
        = st.followup_schedules
      ∧ (stop_medication_schedule st sidM).1.jobs = st.jobs
      ∧ (stop_medication_schedule st sidM).1.medication_schedules.length
        = st.medication_schedules.length
      ∧ ∀ i : Nat,
          ((st.medication_schedules[i]?.map fun x => x.id == sidM)
              = some false →
            (stop_medication_schedule st sidM).1.medication_schedules[i]?
              = st.medication_schedules[i]?)
          ∧ ((st.medication_schedules[i]?.map fun x => x.id == sidM)
              = some true →
            (stop_medication_schedule st sidM).1.medication_schedules[i]?
              = st.medication_schedules[i]?.map
                  fun x => { x with is_active := false }))
    ∧ ((stop_followup_schedule st sidF).1.medication_schedules
        = st.medication_schedules
      ∧ (stop_followup_schedule st sidF).1.jobs = st.jobs
      ∧ (stop_followup_schedule st sidF).1.followup_schedules.length
        = st.followup_schedules.length
      ∧ ∀ i : Nat,
          ((st.followup_schedules[i]?.map fun x => x.id == sidF)
              = some false →
            (stop_followup_schedule st sidF).1.followup_schedules[i]?
              = st.followup_schedules[i]?)
          ∧ ((st.followup_schedules[i]?.map fun x => x.id == sidF)
              = some true →
            (stop_followup_schedule st sidF).1.followup_schedules[i]?
              = st.followup_schedules[i]?.map
                  fun x => { x with is_active := false })) := by
  rw [stop_med_found_eq st sidM hM, stop_fup_found_eq st sidF hF]
  constructor
  · refine ⟨rfl, rfl, ?_, ?_⟩
    · show (st.medication_schedules.map fun x =>
        if x.id == sidM then { x with is_active := false } else x).length
        = st.medication_schedules.length
      rw [List.length_map]
    · intro i
      constructor
      · intro hfalse
        show (st.medication_schedules.map fun x =>
            if x.id == sidM then { x with is_active := false } else x)[i]?
          = st.medication_schedules[i]?
        rw [List.getElem?_map]
        cases hx : st.medication_schedules[i]? with
        | none => rfl
        | some x =>
          rw [hx] at hfalse
          simp only [Option.map_some', Option.some.injEq] at hfalse
          simp only [Option.map_some']
          rw [if_neg (by simp [hfalse])]
      · intro htrue
        show (st.medication_schedules.map fun x =>
            if x.id == sidM then { x with is_active := false } else x)[i]?
          = st.medication_schedules[i]?.map
              fun x => { x with is_active := false }
        rw [List.getElem?_map]
        cases hx : st.medication_schedules[i]? with
        | none => rfl
        | some x =>
          rw [hx] at htrue
          simp only [Option.map_some', Option.some.injEq] at htrue
          simp only [Option.map_some']
          rw [if_pos (by simp [htrue])]
  · refine ⟨rfl, rfl, ?_, ?_⟩
    · show (st.followup_schedules.map fun x =>
        if x.id == sidF then { x with is_active := false } else x).length
        = st.followup_schedules.length
      rw [List.length_map]
    · intro i
      constructor
      · intro hfalse
        show (st.followup_schedules.map fun x =>
            if x.id == sidF then { x with is_active := false } else x)[i]?
          = st.followup_schedules[i]?
        rw [List.getElem?_map]
        cases hx : st.followup_schedules[i]? with
        | none => rfl
        | some x =>
          rw [hx] at hfalse
          simp only [Option.map_some', Option.some.injEq] at hfalse
          simp only [Option.map_some']
          rw [if_neg (by simp [hfalse])]
      · intro htrue
        show (st.followup_schedules.map fun x =>
            if x.id == sidF then { x with is_active := false } else x)[i]?
          = st.followup_schedules[i]?.map
              fun x => { x with is_active := false }
        rw [List.getElem?_map]
        cases hx : st.followup_schedules[i]? with
        | none => rfl
        | some x =>
          rw [hx] at htrue
          simp only [Option.map_some', Option.some.injEq] at htrue
          simp only [Option.map_some']
          rw [if_pos (by simp [htrue])]

/-- Witness for C10: stopping `"m1"` and `"f1"` in the demo state: the
matching first entries lose only `is_active`, the second entries and the
other registry and jobs are untouched. -/
theorem stop_frame_witness :
    (stop_medication_schedule demoState "m1").1.followup_schedules
      = demoState.followup_schedules
    ∧ (stop_medication_schedule demoState "m1").1.jobs = demoState.jobs
    ∧ (stop_medication_schedule demoState "m1").1.medication_schedules[1]?
      = demoState.medication_schedules[1]?
    ∧ (stop_medication_schedule demoState "m1").1.medication_schedules[0]?
      = demoState.medication_schedules[0]?.map
          (fun x => { x with is_active := false })
    ∧ (stop_followup_schedule demoState "f1").1.medication_schedules
      = demoState.medication_schedules
    ∧ (stop_followup_schedule demoState "f1").1.followup_schedules[1]?
      = demoState.followup_schedules[1]?
    ∧ (stop_followup_schedule demoState "f1").1.followup_schedules[0]?
      = demoState.followup_schedules[0]?.map
          (fun x => { x with is_active := false }) := by
  have h := stop_frame demoState "m1" "f1" (by decide) (by decide)
  exact ⟨h.1.1, h.1.2.1, (h.1.2.2.2 1).1 (by decide),
    (h.1.2.2.2 0).2 (by decide), h.2.1, (h.2.2.2.2 1).1 (by decide),
    (h.2.2.2.2 0).2 (by decide)⟩

/-- Witness for C4: a concrete round-trip. -/
theorem save_load_roundtrip_witness :
    load_schedules (saveData [demoMed2] [demoFup1])
      = ⟨[demoMed2].map (fun m => { m with chat_id := none }), [demoFup1],
         false⟩ :=
  save_load_roundtrip [demoMed2] [demoFup1]

/-- Witness for C5: unparseable JSON and a concrete malformed-record file. -/
theorem load_never_raises_witness :
    (load_schedules FileState.invalidJson).raised = false
    ∧ load_schedules (FileState.parsed
        ([medToRec demoMed1].map some ++ none :: []) [])
      = ⟨[medToRec demoMed1].map recToMed, [], false⟩ :=
  ⟨load_never_raises_and_keeps_initial_records.1 FileState.invalidJson,
   load_never_raises_and_keeps_initial_records.2.2.2 [medToRec demoMed1] [] []⟩

/-- Witness for C6: a concrete well-formed add also goes through unvalidated
and is stored and persisted. -/
theorem add_medication_schedule_never_validates_witness :
    (add_medication_schedule demoState "m9" "X" "1mg" ["08:00"] 5 none "" none
      0).2 = "m9"
    ∧ (add_medication_schedule demoState "m9" "X" "1mg" ["08:00"] 5 none ""
        none 0).1.medication_schedules.find? (fun x => x.id == "m9")
      = some ⟨"m9", "X", "1mg", ["08:00"], 5, 0, 0 + 5 * 86400, "", true, 0,
          none⟩
    ∧ (add_medication_schedule demoState "m9" "X" "1mg" ["08:00"] 5 none ""
        none 0).1.savedFile
      = saveData
          (add_medication_schedule demoState "m9" "X" "1mg" ["08:00"] 5 none ""
            none 0).1.medication_schedules
          (add_medication_schedule demoState "m9" "X" "1mg" ["08:00"] 5 none ""
            none 0).1.followup_schedules :=
  add_medication_schedule_never_validates demoState "m9" "X" "1mg" ["08:00"] 5
    none "" none 0

/-- Witness for C8: the demo state queried at instant 50. -/
theorem get_active_schedules_spec_witness :
    (demoMed1 ∈ (get_active_schedules demoState 50).1 ↔
      demoMed1 ∈ demoState.medication_schedules ∧ demoMed1.is_active = true
        ∧ (50 : Int) ≤ demoMed1.end_date)
    ∧ (demoFup1 ∈ (get_active_schedules demoState 50).2 ↔
      demoFup1 ∈ demoState.followup_schedules ∧ demoFup1.is_active = true
        ∧ (50 : Int) < demoFup1.appointment_date) :=
  ⟨(get_active_schedules_spec demoState 50).1 demoMed1,
   (get_active_schedules_spec demoState 50).2 demoFup1⟩
